import Mathlib

/-!
Verification of the EG4 proxy server (an Express/node HTTP proxy in front of the
EG4 solar-inverter monitoring API).  The development shallowly embeds the pure
computations of the two source files (`src/server.js` and the unnamed source
file containing the `/api/eg4/working-modes` handler): JSON field values,
JavaScript truthiness, `parseInt`, zero-padded time formatting, slot
extraction, enable-flag gating, the stable sort by start time, the
Self-Consumption gap-fill loop, session validity, cookie extraction, the
station-selection and settings-write handlers, and the realtime consumption
computation.  Machine state (the three module-level variables) is an explicit
record; `Date.now()` is an explicit parameter; upstream HTTP responses are
explicit parameters.
-/

namespace EG4

/-- Model of a JSON value as it appears in the merged register-field map
(`allFields`) and in request bodies: the upstream API delivers numbers,
strings, booleans and nulls.  Numbers are modelled as integers (the register
values are integral; a fractional input is indistinguishable from its
truncation for every operation the code performs on these fields). -/
inductive JsVal where
  | num (n : Int)
  | str (s : String)
  | bool (b : Bool)
  | null
deriving DecidableEq

/-- JavaScript truthiness of a value: `0`, `""`, `false` and `null` are falsy. -/
def jsTruthy : JsVal → Bool
  | .num n => n != 0
  | .str s => s != ""
  | .bool b => b
  | .null => false

/-- Truthiness of a possibly-absent value (`undefined` is falsy). -/
def jsTruthyOpt : Option JsVal → Bool
  | none => false
  | some v => jsTruthy v

/-- The merged register-field map `allFields`: a partial map from field name to
value (`none` models a missing key / `undefined`). -/
def Fields : Type := String → Option JsVal

/-- JavaScript string-coercion `String(v)` for the values that can reach
`parseInt` in the handler. -/
def jsToString : JsVal → String
  | .num n => toString n
  | .str s => s
  | .bool b => if b then "true" else "false"
  | .null => "null"

/-- Longest decimal-digit prefix of a character list, as an accumulating
parser: returns `none` when no digit has been seen (JS `NaN`). -/
def parseDigits : List Char → Option Nat → Option Nat
  | [], acc => acc
  | c :: cs, acc =>
    if c.isDigit then parseDigits cs (some ((acc.getD 0) * 10 + (c.toNat - 48)))
    else acc

/-- Model of JavaScript `parseInt(s)` (radix 10): skip leading whitespace,
optional sign, then the longest digit prefix; `none` models `NaN`.  (The
`0x` hexadecimal-prefix inference of `parseInt` is not modelled; no register
field is a hex literal.) -/
def jsParseIntStr (s : String) : Option Int :=
  match s.data.dropWhile Char.isWhitespace with
  | '-' :: rest => (parseDigits rest none).map (fun n => -(n : Int))
  | '+' :: rest => (parseDigits rest none).map (fun n => (n : Int))
  | rest => (parseDigits rest none).map (fun n => (n : Int))

/-- `parseInt(v)` on a JSON value: coerce to string, then parse. -/
def jsParseInt (v : JsVal) : Option Int :=
  jsParseIntStr (jsToString v)

/-- The defaulting idiom `allFields[k] || '0'`: a missing or falsy value is
replaced by the string `'0'`. -/
def orZeroStr (v : Option JsVal) : JsVal :=
  match v with
  | none => .str "0"
  | some w => if jsTruthy w then w else .str "0"

/-- One time field of the handler: `parseInt(allFields[k] || '0')`.
`none` models `NaN` (an unparseable non-falsy value, e.g. a boolean or a
non-numeric string). -/
def getTimeField (f : Fields) (k : String) : Option Int :=
  jsParseInt (orZeroStr (f k))

/-- JavaScript strict inequality `!==` on two numbers-or-NaN: `NaN` is
strictly unequal to everything, including itself. -/
def jsStrictNe : Option Int → Option Int → Bool
  | some x, some y => x != y
  | _, _ => true

/-- `String(n).padStart(2,'0')`. -/
def padStart2 (s : String) : String :=
  String.mk (List.replicate (2 - s.length) '0' ++ s.data)

/-- `String(h)` of a parsed time component: `String(NaN)` is `"NaN"`. -/
def fmtNum (v : Option Int) : String :=
  match v with
  | none => "NaN"
  | some n => padStart2 (toString n)

/-- The rendered `HH:MM` string of the handler's template literal. -/
def fmtTime (h m : Option Int) : String :=
  fmtNum h ++ ":" ++ fmtNum m

/-- A `{start, end}` time slot as pushed into the per-family lists. -/
structure TimeSlot where
  startT : String
  endT : String
deriving DecidableEq

/-- The four register-field names of one slot of one mode family. -/
structure SlotKeys where
  sh : String
  sm : String
  eh : String
  em : String
deriving DecidableEq

/-- The `acPrefixes` table of the handler (3 AC-Charge slots). -/
def acSlotKeys : List SlotKeys :=
  [⟨"HOLD_AC_CHARGE_START_HOUR", "HOLD_AC_CHARGE_START_MINUTE",
    "HOLD_AC_CHARGE_END_HOUR", "HOLD_AC_CHARGE_END_MINUTE"⟩,
   ⟨"HOLD_AC_CHARGE_START_HOUR_1", "HOLD_AC_CHARGE_START_MINUTE_1",
    "HOLD_AC_CHARGE_END_HOUR_1", "HOLD_AC_CHARGE_END_MINUTE_1"⟩,
   ⟨"HOLD_AC_CHARGE_START_HOUR_2", "HOLD_AC_CHARGE_START_MINUTE_2",
    "HOLD_AC_CHARGE_END_HOUR_2", "HOLD_AC_CHARGE_END_MINUTE_2"⟩]

/-- The `psSlots` table of the handler (2 Peak-Shaving slots). -/
def psSlotKeys : List SlotKeys :=
  [⟨"LSP_HOLD_DIS_CHG_POWER_TIME_37", "LSP_HOLD_DIS_CHG_POWER_TIME_38",
    "LSP_HOLD_DIS_CHG_POWER_TIME_39", "LSP_HOLD_DIS_CHG_POWER_TIME_40"⟩,
   ⟨"LSP_HOLD_DIS_CHG_POWER_TIME_41", "LSP_HOLD_DIS_CHG_POWER_TIME_42",
    "LSP_HOLD_DIS_CHG_POWER_TIME_43", "LSP_HOLD_DIS_CHG_POWER_TIME_44"⟩]

/-- The `fcPrefixes` table of the handler (2 Forced-Charge slots). -/
def fcSlotKeys : List SlotKeys :=
  [⟨"HOLD_FORCED_CHARGE_START_HOUR", "HOLD_FORCED_CHARGE_START_MINUTE",
    "HOLD_FORCED_CHARGE_END_HOUR", "HOLD_FORCED_CHARGE_END_MINUTE"⟩,
   ⟨"HOLD_FORCED_CHARGE_START_HOUR_1", "HOLD_FORCED_CHARGE_START_MINUTE_1",
    "HOLD_FORCED_CHARGE_END_HOUR_1", "HOLD_FORCED_CHARGE_END_MINUTE_1"⟩]

/-- The `fdPrefixes` table of the handler (2 Forced-Discharge slots). -/
def fdSlotKeys : List SlotKeys :=
  [⟨"HOLD_FORCED_DISCHARGE_START_HOUR", "HOLD_FORCED_DISCHARGE_START_MINUTE",
    "HOLD_FORCED_DISCHARGE_END_HOUR", "HOLD_FORCED_DISCHARGE_END_MINUTE"⟩,
   ⟨"HOLD_FORCED_DISCHARGE_START_HOUR_1", "HOLD_FORCED_DISCHARGE_START_MINUTE_1",
    "HOLD_FORCED_DISCHARGE_END_HOUR_1", "HOLD_FORCED_DISCHARGE_END_MINUTE_1"⟩]

/-- The body of each slot-extraction loop: parse the four fields, keep the slot
(formatted) when `startH !== endH || startM !== endM`, drop it otherwise. -/
def extractSlot (f : Fields) (p : SlotKeys) : Option TimeSlot :=
  let sH := getTimeField f p.sh
  let sM := getTimeField f p.sm
  let eH := getTimeField f p.eh
  let eM := getTimeField f p.em
  if jsStrictNe sH eH || jsStrictNe sM eM then
    some ⟨fmtTime sH sM, fmtTime eH eM⟩
  else
    none

/-- The `acCharge` list built by the first extraction loop. -/
def acChargeList (f : Fields) : List TimeSlot :=
  acSlotKeys.filterMap (extractSlot f)

/-- The `peakShaving` list. -/
def peakShavingList (f : Fields) : List TimeSlot :=
  psSlotKeys.filterMap (extractSlot f)

/-- The `forcedCharge` list. -/
def forcedChargeList (f : Fields) : List TimeSlot :=
  fcSlotKeys.filterMap (extractSlot f)

/-- The `forcedDischarge` list. -/
def forcedDischargeList (f : Fields) : List TimeSlot :=
  fdSlotKeys.filterMap (extractSlot f)

/-- The enable-flag idiom `allFields[k] === true || allFields[k] === 'true'`. -/
def readEnable (f : Fields) (k : String) : Bool :=
  (f k == some (.bool true)) || (f k == some (.str "true"))

/-- `peakEnabled`. -/
def peakEnabled (f : Fields) : Bool :=
  readEnable f "FUNC_GRID_PEAK_SHAVING"

/-- `forcedChargeEnabled`. -/
def forcedChargeEnabled (f : Fields) : Bool :=
  readEnable f "FUNC_FORCED_CHG_EN"

/-- `forcedDischargeEnabled`. -/
def forcedDischargeEnabled (f : Fields) : Bool :=
  readEnable f "FUNC_FORCED_DISCHG_EN"

/-- A `{mode, start, end}` entry of the pooled `modes` array / the emitted
`schedule` array. -/
structure ModeSegment where
  mode : String
  startT : String
  endT : String
deriving DecidableEq

/-- Spread of a slot into a `{mode, ...slot}` object. -/
def segOf (m : String) (s : TimeSlot) : ModeSegment :=
  ⟨m, s.startT, s.endT⟩

/-- The pooled `modes` array: AC Charge unconditionally, the gated families
only when their enable flag is set, in source order. -/
def poolModes (f : Fields) : List ModeSegment :=
  (acChargeList f).map (segOf "AC Charge")
    ++ (if peakEnabled f then (peakShavingList f).map (segOf "Peak Shaving") else [])
    ++ (if forcedChargeEnabled f then (forcedChargeList f).map (segOf "Forced Charge") else [])
    ++ (if forcedDischargeEnabled f then (forcedDischargeList f).map (segOf "Forced Discharge") else [])

/-- Lexicographic (code-unit) comparison of character lists: the order
JavaScript `<`, `>` and `localeCompare` induce on the fixed-width ASCII time
strings of this program. -/
def lexLt : List Char → List Char → Bool
  | _, [] => false
  | [], _ :: _ => true
  | a :: as, b :: bs => if a < b then true else if b < a then false else lexLt as bs

/-- JavaScript string comparison `a < b`. -/
def strLt (a b : String) : Bool :=
  lexLt a.data b.data

/-- Stable insertion of a segment into a list sorted by start time: the new
segment goes after every existing segment whose start is not greater.  This is
the comparator `(a, b) => a.start.localeCompare(b.start)`. -/
def insertByStart (a : ModeSegment) : List ModeSegment → List ModeSegment
  | [] => [a]
  | b :: l => if strLt b.startT a.startT then b :: insertByStart a l else a :: b :: l

/-- `modes.sort((a, b) => a.start.localeCompare(b.start))`: a stable sort by
start time (JavaScript `Array.prototype.sort` is stable). -/
def sortModes : List ModeSegment → List ModeSegment
  | [] => []
  | m :: ms => insertByStart m (sortModes ms)

/-- The gap-fill loop body: walk the sorted segments with a cursor, emitting a
synthetic Self-Consumption segment whenever the next segment starts strictly
after the cursor (`m.start > cursor`), then the segment itself; the cursor
advances to the segment's end. -/
def gapFillSegs : String → List ModeSegment → List ModeSegment
  | _, [] => []
  | c, m :: ms =>
    (if strLt c m.startT then [⟨"Self Consumption", c, m.startT⟩] else [])
      ++ m :: gapFillSegs m.endT ms

/-- The cursor value after the gap-fill loop: the last segment's end, or the
initial cursor when there was no segment. -/
def finalCursor : String → List ModeSegment → String
  | c, [] => c
  | _, m :: ms => finalCursor m.endT ms

/-- The trailing fill: `if (cursor < '24:00' && cursor !== '00:00')` push a
Self-Consumption segment up to `'24:00'`. -/
def finalFill (ms : List ModeSegment) : List ModeSegment :=
  let c := finalCursor "00:00" ms
  if strLt c "24:00" && (c != "00:00") then [⟨"Self Consumption", c, "24:00"⟩] else []

/-- The empty-modes fallback: `if (modes.length === 0)` push a whole-day
Self-Consumption segment. -/
def emptyFill (ms : List ModeSegment) : List ModeSegment :=
  if ms.isEmpty then [⟨"Self Consumption", "00:00", "24:00"⟩] else []

/-- The complete `schedule` array built from the (already sorted) `modes`. -/
def buildSchedule (ms : List ModeSegment) : List ModeSegment :=
  gapFillSegs "00:00" ms ++ finalFill ms ++ emptyFill ms

/-- The `schedule` field of the `/api/eg4/working-modes` response, as a
function of the merged register-field map. -/
def workingSchedule (f : Fields) : List ModeSegment :=
  buildSchedule (sortModes (poolModes f))

/-- A concrete field map given by an association list (used to evaluate the
handler on explicit inputs). -/
def fieldsOf (l : List (String × JsVal)) : Fields :=
  fun k => l.lookup k

/-! ## Server state, session management, and the stateful handlers -/

/-- The three module-level variables of the server: `sessionCookie`,
`lastLoginTime` and `currentSerialNum` (all initialised to `null`).
`currentSerialNum` holds whatever truthy body value a select-station call
stored. -/
structure ServerState where
  sessionCookie : Option String
  lastLoginTime : Option Int
  currentSerialNum : Option JsVal
deriving DecidableEq

/-- `SESSION_TIMEOUT = 30 * 60 * 1000` milliseconds. -/
def SESSION_TIMEOUT : Int := 30 * 60 * 1000

/-- Truthiness of a nullable string (`null` and `""` are falsy). -/
def truthyStrOpt : Option String → Bool
  | none => false
  | some s => s != ""

/-- Truthiness of a nullable number (`null` and `0` are falsy). -/
def truthyIntOpt : Option Int → Bool
  | none => false
  | some n => n != 0

/-- `isSessionValid()`:
`sessionCookie && lastLoginTime && (Date.now() - lastLoginTime < SESSION_TIMEOUT)`.
`Date.now()` is the explicit `now` argument; the first two conjuncts are
JavaScript truthiness tests.  (When `lastLoginTime` is `null` the third
conjunct is never reached; the `getD 0` default is irrelevant because the
second conjunct is already false.) -/
def isSessionValid (st : ServerState) (now : Int) : Bool :=
  truthyStrOpt st.sessionCookie && truthyIntOpt st.lastLoginTime
    && decide (now - st.lastLoginTime.getD 0 < SESSION_TIMEOUT)

/-- `c.split(';')[0]`: the part of a cookie before the first semicolon. -/
def cookieFirstPart (c : String) : String :=
  String.mk (c.data.takeWhile (fun ch => ch ≠ ';'))

/-- `extractCookies(response)`: `null` when the response carried no
`set-cookie` header at all; otherwise the headers joined by `'; '` after
stripping attributes. -/
def extractCookies (raw : Option (List String)) : Option String :=
  match raw with
  | none => none
  | some l => some (String.intercalate "; " (l.map cookieFirstPart))

/-- A plant row of the upstream plant-list response. -/
structure Plant where
  id : Int
  name : String
  address : Option String

/-- An inverter row of the upstream inverter-list response. -/
structure Inv where
  serialNum : String
  deviceTypeText : String
  statusText : String

/-- A station of the login response. -/
structure Station where
  name : String
  plantName : String
  plantId : Int
  serialNum : String
  deviceType : String
  status : String
  address : String
deriving DecidableEq

/-- The upstream responses the login handler consumes: the `set-cookie`
headers of the login response (`none` models an absent header), the plant
rows, and the inverter rows of each plant (keyed by plant id; the `|| []`
coalescing is already folded into the lists). -/
structure LoginUpstream where
  setCookie : Option (List String)
  plants : List Plant
  inverters : Int → List Inv

/-- Station flattening: one station per (plant, inverter) pair, in
plant-then-inverter order. -/
def buildStations (up : LoginUpstream) : List Station :=
  up.plants.flatMap (fun p =>
    (up.inverters p.id).map (fun inv =>
      ⟨p.name ++ " — " ++ inv.deviceTypeText ++ " (" ++ inv.serialNum ++ ")",
       p.name, p.id, inv.serialNum, inv.deviceTypeText, inv.statusText,
       p.address.getD ""⟩))

/-- Outcome of the login handler (HTTP status and body shape). -/
inductive LoginResult where
  | badRequest
  | authFailed
  | ok (stations : List Station)
deriving DecidableEq

/-- The `/api/eg4/login` handler: 400 when account or password is falsy; 401
without touching state when the extracted cookie string is falsy; otherwise
store the cookie and the login time and list the stations. -/
def loginHandler (st : ServerState) (now : Int) (account password : Option String)
    (up : LoginUpstream) : ServerState × LoginResult :=
  if !truthyStrOpt account || !truthyStrOpt password then
    (st, .badRequest)
  else
    let cookies := extractCookies up.setCookie
    if !truthyStrOpt cookies then
      (st, .authFailed)
    else
      ({ st with sessionCookie := cookies, lastLoginTime := some now },
       .ok (buildStations up))

/-- Outcome of the select-station handler. -/
inductive SelectResult where
  | badRequest
  | ok (serialNum : JsVal)
deriving DecidableEq

/-- The `/api/eg4/select-station` handler: 400 when `req.body.serialNum` is
falsy, otherwise store it and echo it back. -/
def selectStation (st : ServerState) (serialNum : Option JsVal) :
    ServerState × SelectResult :=
  if !jsTruthyOpt serialNum then
    (st, .badRequest)
  else
    ({ st with currentSerialNum := serialNum }, .ok (serialNum.getD .null))

/-- A request body / forwarded payload: a map from key to JSON value. -/
def Body : Type := String → Option JsVal

/-- `{ ...req.body, serialNum: currentSerialNum }`: the caller's body with the
`serialNum` key overwritten by the currently selected serial number (`null`
when none is selected). -/
def injectSerial (body : Body) (sn : Option JsVal) : Body :=
  fun k => if k = "serialNum" then some (sn.getD .null) else body k

/-- Outcome of a settings-write handler: either a 401 with nothing forwarded,
or the payload forwarded to the named upstream endpoint. -/
inductive WriteResult where
  | authError
  | forwarded (url : String) (payload : Body)

/-- Common shape of the four settings-write handlers: gate on session
validity, then forward the body with the serial number injected. -/
def settingsWrite (url : String) (st : ServerState) (now : Int) (body : Body) :
    WriteResult :=
  if isSessionValid st now then
    .forwarded url (injectSerial body st.currentSerialNum)
  else
    .authError

/-- The `/api/eg4/set-working-mode` handler. -/
def setWorkingMode (st : ServerState) (now : Int) (body : Body) : WriteResult :=
  settingsWrite "/api/inverter/setWorkingMode" st now body

/-- The `/api/eg4/set-ac-charge` handler. -/
def setAcCharge (st : ServerState) (now : Int) (body : Body) : WriteResult :=
  settingsWrite "/api/inverter/setAcChargeConfig" st now body

/-- The `/api/eg4/set-peak-shaving` handler. -/
def setPeakShaving (st : ServerState) (now : Int) (body : Body) : WriteResult :=
  settingsWrite "/api/inverter/setPeakShavingConfig" st now body

/-- The `/api/eg4/set-battery-settings` handler. -/
def setBatterySettings (st : ServerState) (now : Int) (body : Body) : WriteResult :=
  settingsWrite "/api/inverter/setBatteryConfig" st now body

/-- The runtime fields of `getInverterRuntime` used by the consumption
computation of the `/api/eg4/realtime` handler (`none` models an absent
field). -/
structure Runtime where
  ppv : Option Int
  pToUser : Option Int
  pDisCharge : Option Int
  pToGrid : Option Int
  pCharge : Option Int
deriving DecidableEq

/-- `consumptionW = solarW + gridImportW + battDischargeW - gridExportW - battChargeW`
with each raw field defaulted to 0 by `|| 0`. -/
def consumptionW (r : Runtime) : Int :=
  (r.ppv.getD 0) + (r.pToUser.getD 0) + (r.pDisCharge.getD 0)
    - (r.pToGrid.getD 0) - (r.pCharge.getD 0)

/-- The reported `consumptionPower: Math.max(0, consumptionW)`. -/
def consumptionPower (r : Runtime) : Int :=
  max 0 (consumptionW r)

/-- The realtime endpoint's consumption report: `none` is the soft failure
`{success:false}` emitted when the session is invalid or no station is
selected (`!isSessionValid() || !currentSerialNum`). -/
def realtimeConsumption (st : ServerState) (now : Int) (r : Runtime) : Option Int :=
  if !isSessionValid st now || !jsTruthyOpt st.currentSerialNum then
    none
  else
    some (consumptionPower r)

/-! ## Spec-side predicates (the claims' vocabulary)

These `B`-suffixed booleans state the properties the specification claims of
the emitted schedule; they are written from the spec's words, to be compared
with the output of the embedded code. -/

/-- Adjacency: read left to right, each segment's end equals the next
segment's start. -/
def adjacentB : List ModeSegment → Bool
  | [] => true
  | [_] => true
  | a :: b :: t => (a.endT == b.startT) && adjacentB (b :: t)

/-- The spec's schedule invariant: adjacency, first segment starting at
`"00:00"`, last segment ending at `"24:00"`. -/
def contiguousB (l : List ModeSegment) : Bool :=
  adjacentB l
    && (match l.head? with
        | some a => a.startT == "00:00"
        | none => false)
    && (match l.getLast? with
        | some a => a.endT == "24:00"
        | none => false)

/-- `tilesB c e l`: the segments of `l` tile the interval from `c` to `e`
exactly (each starts where the previous ended). -/
def tilesB : String → String → List ModeSegment → Bool
  | c, e, [] => c == e
  | c, e, m :: ms => (c == m.startT) && tilesB m.endT e ms

/-- `sortedSepB c ms`: starting from cursor `c`, each segment starts no
earlier than the cursor and the cursor then advances to its end — i.e. the
list is sorted and pairwise non-overlapping from `c` on.  (This is the
well-formedness proviso of the gap-fill algorithm.) -/
def sortedSepB : String → List ModeSegment → Bool
  | _, [] => true
  | c, m :: ms => !strLt m.startT c && sortedSepB m.endT ms

/-- `wfSlotsB ms`: every segment is a genuine forward interval ending within
the day (`start < end` and `end ≤ "24:00"` in string order). -/
def wfSlotsB : List ModeSegment → Bool
  | [] => true
  | m :: ms => (strLt m.startT m.endT && !strLt "24:00" m.endT) && wfSlotsB ms

/-! ## Order lemmas for the code-unit lexicographic comparison -/

theorem lexLt_irrefl (l : List Char) : lexLt l l = false := by
  induction l with
  | nil => rfl
  | cons a as ih => simp [lexLt, lt_irrefl, ih]

theorem lexLt_antisymm : ∀ {l₁ l₂ : List Char},
    lexLt l₁ l₂ = false → lexLt l₂ l₁ = false → l₁ = l₂
  | [], [], _, _ => rfl
  | [], _ :: _, h₁, _ => by simp [lexLt] at h₁
  | _ :: _, [], _, h₂ => by simp [lexLt] at h₂
  | a :: as, b :: bs, h₁, h₂ => by
    by_cases hab : a < b
    · simp [lexLt, hab] at h₁
    · by_cases hba : b < a
      · simp [lexLt, hba] at h₂
      · have hc : a = b := le_antisymm (not_lt.mp hba) (not_lt.mp hab)
        subst hc
        simp only [lexLt, if_neg hab, if_neg hab] at h₁ h₂
        rw [lexLt_antisymm h₁ h₂]

theorem lexLt_trans : ∀ {l₁ l₂ l₃ : List Char},
    lexLt l₁ l₂ = true → lexLt l₂ l₃ = true → lexLt l₁ l₃ = true
  | _, l₂, [], _, h₂ => by cases l₂ <;> simp [lexLt] at h₂
  | [], l₂, _ :: _, _, _ => by simp [lexLt]
  | _ :: _, [], _, h₁, _ => by simp [lexLt] at h₁
  | a :: as, b :: bs, c :: cs, h₁, h₂ => by
    by_cases hab : a < b
    · by_cases hbc : b < c
      · simp [lexLt, lt_trans hab hbc]
      · by_cases hcb : c < b
        · simp [lexLt, hbc, hcb] at h₂
        · have : b = c := le_antisymm (not_lt.mp hcb) (not_lt.mp hbc)
          subst this
          simp [lexLt, hab]
    · by_cases hba : b < a
      · simp [lexLt, hab, hba] at h₁
      · have hc : a = b := le_antisymm (not_lt.mp hba) (not_lt.mp hab)
        subst hc
        simp only [lexLt, if_neg hab, if_neg hab] at h₁
        by_cases hac : a < c
        · simp [lexLt, hac]
        · by_cases hca : c < a
          · simp [lexLt, hac, hca] at h₂
          · simp only [lexLt, if_neg hac, if_neg hca] at h₂ ⊢
            exact lexLt_trans h₁ h₂

theorem strLt_irrefl (s : String) : strLt s s = false :=
  lexLt_irrefl s.data

theorem strLt_antisymm {a b : String} (h₁ : strLt a b = false)
    (h₂ : strLt b a = false) : a = b := by
  cases a with
  | mk da =>
    cases b with
    | mk db => exact congrArg String.mk (lexLt_antisymm h₁ h₂)

theorem strLt_trans {a b c : String} (h₁ : strLt a b = true)
    (h₂ : strLt b c = true) : strLt a c = true :=
  lexLt_trans h₁ h₂

/-- Trichotomy, phrased for the boolean comparison. -/
theorem strLt_false_cases {a b : String} (h : strLt a b = false) :
    strLt b a = true ∨ a = b := by
  cases hba : strLt b a with
  | true => exact Or.inl rfl
  | false => exact Or.inr (strLt_antisymm h hba)

/-- Transitivity of the complement: if `a ≥ b` and `b ≥ c` then `a ≥ c`. -/
theorem strLt_neg_trans {a b c : String} (h₁ : strLt a b = false)
    (h₂ : strLt b c = false) : strLt a c = false := by
  cases hac : strLt a c with
  | false => rfl
  | true =>
    rcases strLt_false_cases h₁ with hba | rfl
    · rcases strLt_false_cases h₂ with hcb | rfl
      · have := strLt_trans (strLt_trans hba hac) hcb
        rw [strLt_irrefl] at this
        exact this.symm
      · have := strLt_trans hba hac
        rw [strLt_irrefl] at this
        exact this.symm
    · rw [hac] at h₂
      exact h₂

/-- From `c ≤ x` (no `x < c`) and `x < y`: `c < y`. -/
theorem strLt_of_ge_of_lt {c x y : String} (h₁ : strLt x c = false)
    (h₂ : strLt x y = true) : strLt c y = true := by
  cases hcy : strLt c y with
  | true => rfl
  | false =>
    have := strLt_neg_trans h₁ hcy
    rw [h₂] at this
    exact this.symm

/-! ## Membership lemmas for sorting and gap fill -/

theorem mem_insertByStart {x a : ModeSegment} : ∀ {l : List ModeSegment},
    x ∈ insertByStart a l ↔ x = a ∨ x ∈ l
  | [] => by simp [insertByStart]
  | b :: l => by
    by_cases h : strLt b.startT a.startT
    · simp only [insertByStart, if_pos h, List.mem_cons, mem_insertByStart (l := l)]
      tauto
    · simp only [insertByStart, if_neg h, List.mem_cons]

theorem mem_sortModes {x : ModeSegment} : ∀ {l : List ModeSegment},
    x ∈ sortModes l ↔ x ∈ l
  | [] => Iff.rfl
  | m :: l => by
    simp only [sortModes, mem_insertByStart, mem_sortModes (l := l), List.mem_cons]

theorem mem_gapFillSegs_of_mem {x : ModeSegment} :
    ∀ {ms : List ModeSegment} (c : String), x ∈ ms → x ∈ gapFillSegs c ms
  | m :: ms, c, hx => by
    rcases List.mem_cons.mp hx with rfl | hx
    · exact List.mem_append_right _ (List.mem_cons_self _ _)
    · exact List.mem_append_right _
        (List.mem_cons_of_mem _ (mem_gapFillSegs_of_mem m.endT hx))

theorem gapFillSegs_mem_cases {x : ModeSegment} :
    ∀ {ms : List ModeSegment} {c : String}, x ∈ gapFillSegs c ms →
      x ∈ ms ∨ (x.mode = "Self Consumption" ∧ strLt x.startT x.endT = true)
  | m :: ms, c, hx => by
    rcases List.mem_append.mp hx with hpre | hrest
    · by_cases hc : strLt c m.startT
      · rw [if_pos hc] at hpre
        rcases List.mem_singleton.mp hpre with rfl
        exact Or.inr ⟨rfl, hc⟩
      · rw [if_neg hc] at hpre
        cases hpre
    · rcases List.mem_cons.mp hrest with rfl | hx'
      · exact Or.inl (List.mem_cons_self _ _)
      · rcases gapFillSegs_mem_cases hx' with h | h
        · exact Or.inl (List.mem_cons_of_mem _ h)
        · exact Or.inr h

theorem finalFill_mem_cases {x : ModeSegment} {ms : List ModeSegment}
    (hx : x ∈ finalFill ms) :
    x.mode = "Self Consumption" ∧ strLt x.startT x.endT = true := by
  unfold finalFill at hx
  by_cases h : (strLt (finalCursor "00:00" ms) "24:00"
      && (finalCursor "00:00" ms != "00:00")) = true
  · rw [if_pos h] at hx
    rcases List.mem_singleton.mp hx with rfl
    exact ⟨rfl, (Bool.and_eq_true_iff.mp h).1⟩
  · rw [if_neg h] at hx
    cases hx

theorem emptyFill_mem_cases {x : ModeSegment} {ms : List ModeSegment}
    (hx : x ∈ emptyFill ms) :
    x.mode = "Self Consumption" ∧ strLt x.startT x.endT = true := by
  unfold emptyFill at hx
  by_cases h : ms.isEmpty = true
  · rw [if_pos h] at hx
    rcases List.mem_singleton.mp hx with rfl
    exact ⟨rfl, by decide⟩
  · rw [if_neg h] at hx
    cases hx

theorem buildSchedule_mem_cases {x : ModeSegment} {ms : List ModeSegment}
    (hx : x ∈ buildSchedule ms) :
    x ∈ ms ∨ (x.mode = "Self Consumption" ∧ strLt x.startT x.endT = true) := by
  unfold buildSchedule at hx
  rcases List.mem_append.mp hx with hx' | hemp
  · rcases List.mem_append.mp hx' with hgap | hfin
    · exact gapFillSegs_mem_cases hgap
    · exact Or.inr (finalFill_mem_cases hfin)
  · exact Or.inr (emptyFill_mem_cases hemp)

theorem mem_buildSchedule_of_mem {x : ModeSegment} {ms : List ModeSegment}
    (hx : x ∈ ms) : x ∈ buildSchedule ms :=
  List.mem_append_left _ (List.mem_append_left _ (mem_gapFillSegs_of_mem "00:00" hx))

/-- Every segment of the emitted schedule is either a pooled mode segment or a
synthetic Self-Consumption segment. -/
theorem workingSchedule_mem_cases {x : ModeSegment} {f : Fields}
    (hx : x ∈ workingSchedule f) :
    x ∈ poolModes f ∨ (x.mode = "Self Consumption" ∧ strLt x.startT x.endT = true) := by
  rcases buildSchedule_mem_cases hx with h | h
  · exact Or.inl (mem_sortModes.mp h)
  · exact Or.inr h

/-! ## Tiling lemmas: the gap-fill loop tiles the day -/

theorem tilesB_append : ∀ {l₁ l₂ : List ModeSegment} {a b c : String},
    tilesB a b l₁ = true → tilesB b c l₂ = true → tilesB a c (l₁ ++ l₂) = true
  | [], l₂, a, b, c, h₁, h₂ => by
    have : a = b := by simpa [tilesB] using h₁
    simpa [this] using h₂
  | m :: t, l₂, a, b, c, h₁, h₂ => by
    rw [tilesB, Bool.and_eq_true_iff] at h₁
    rw [List.cons_append, tilesB, Bool.and_eq_true_iff]
    exact ⟨h₁.1, tilesB_append h₁.2 h₂⟩

theorem gapFill_tiles : ∀ {ms : List ModeSegment} (c : String),
    sortedSepB c ms = true →
    tilesB c (finalCursor c ms) (gapFillSegs c ms) = true
  | [], c, _ => by simp [gapFillSegs, finalCursor, tilesB]
  | m :: ms, c, hs => by
    rw [sortedSepB, Bool.and_eq_true_iff, Bool.not_eq_true'] at hs
    obtain ⟨hmc, hrec⟩ := hs
    have ih := gapFill_tiles m.endT hrec
    cases hlt : strLt c m.startT with
    | true =>
      simp only [gapFillSegs, finalCursor, if_pos hlt, List.singleton_append,
        tilesB, Bool.and_eq_true_iff]
      exact ⟨beq_self_eq_true c, beq_self_eq_true m.startT, ih⟩
    | false =>
      have hceq : c = m.startT := (strLt_antisymm hmc hlt).symm
      simp only [gapFillSegs, finalCursor, hlt, Bool.false_eq_true, if_false,
        List.nil_append, tilesB, Bool.and_eq_true_iff]
      exact ⟨by rw [hceq]; exact beq_self_eq_true m.startT, ih⟩

theorem finalCursor_bounds : ∀ {ms : List ModeSegment} (c : String), ms ≠ [] →
    sortedSepB c ms = true → wfSlotsB ms = true →
    strLt c (finalCursor c ms) = true ∧ strLt "24:00" (finalCursor c ms) = false
  | [m], c, _, hs, hw => by
    rw [sortedSepB, Bool.and_eq_true_iff, Bool.not_eq_true'] at hs
    rw [wfSlotsB, Bool.and_eq_true_iff, Bool.and_eq_true_iff, Bool.not_eq_true'] at hw
    exact ⟨strLt_of_ge_of_lt hs.1 hw.1.1, by simpa [finalCursor] using hw.1.2⟩
  | m :: m' :: ms, c, _, hs, hw => by
    rw [sortedSepB, Bool.and_eq_true_iff, Bool.not_eq_true'] at hs
    rw [wfSlotsB, Bool.and_eq_true_iff, Bool.and_eq_true_iff, Bool.not_eq_true'] at hw
    have ih := finalCursor_bounds m.endT (List.cons_ne_nil m' ms) hs.2 hw.2
    refine ⟨?_, ih.2⟩
    exact strLt_trans (strLt_of_ge_of_lt hs.1 hw.1.1) ih.1

theorem tiles_adjacent : ∀ {l : List ModeSegment} {c e : String},
    tilesB c e l = true → adjacentB l = true
  | [], _, _, _ => rfl
  | [_], _, _, _ => rfl
  | m :: b :: t, c, e, h => by
    rw [tilesB, Bool.and_eq_true_iff] at h
    have h2 := h.2
    rw [tilesB, Bool.and_eq_true_iff] at h2
    rw [adjacentB, Bool.and_eq_true_iff]
    exact ⟨h2.1, tiles_adjacent h.2⟩

theorem tiles_head {l : List ModeSegment} {c e : String} {m : ModeSegment}
    (h : tilesB c e l = true) (hm : l.head? = some m) : m.startT = c := by
  cases l with
  | nil => cases hm
  | cons a t =>
    rw [List.head?_cons, Option.some_inj] at hm
    subst hm
    rw [tilesB, Bool.and_eq_true_iff] at h
    exact (eq_of_beq h.1).symm

theorem tiles_last : ∀ {l : List ModeSegment} {c e : String} {m : ModeSegment},
    tilesB c e l = true → l.getLast? = some m → m.endT = e
  | [], _, _, _, _, hm => by cases hm
  | [a], c, e, m, h, hm => by
    rw [List.getLast?_singleton, Option.some_inj] at hm
    subst hm
    rw [tilesB, Bool.and_eq_true_iff] at h
    have h2 := h.2
    rw [tilesB] at h2
    exact eq_of_beq h2
  | a :: b :: t, c, e, m, h, hm => by
    rw [tilesB, Bool.and_eq_true_iff] at h
    exact tiles_last h.2 (by rw [← hm, List.getLast?_cons_cons])

theorem tiles_contiguous {l : List ModeSegment} (hne : l ≠ [])
    (h : tilesB "00:00" "24:00" l = true) : contiguousB l = true := by
  obtain ⟨m, hm⟩ : ∃ m, l.head? = some m := by
    cases l with
    | nil => exact absurd rfl hne
    | cons a t => exact ⟨a, rfl⟩
  obtain ⟨x, hx⟩ : ∃ x, l.getLast? = some x := by
    cases hgl : l.getLast? with
    | none => exact absurd (List.getLast?_eq_none_iff.mp hgl) hne
    | some x => exact ⟨x, rfl⟩
  have hh := tiles_head h hm
  have hl := tiles_last h hx
  have ha := tiles_adjacent h
  rw [contiguousB, hm, hx]
  simp [hh, hl, ha]

theorem gapFillSegs_ne_nil {m : ModeSegment} {ms : List ModeSegment} {c : String} :
    gapFillSegs c (m :: ms) ≠ [] := by
  cases hlt : strLt c m.startT <;> simp [gapFillSegs, hlt]

/-- The central schedule invariant: when the sorted pooled segments are
pairwise non-overlapping from `"00:00"` on and each is a forward interval
ending within the day, the emitted schedule is contiguous from `"00:00"`
to `"24:00"`. -/
theorem buildSchedule_contiguous {ms : List ModeSegment}
    (hs : sortedSepB "00:00" ms = true) (hw : wfSlotsB ms = true) :
    contiguousB (buildSchedule ms) = true := by
  cases ms with
  | nil => decide
  | cons m t =>
    obtain ⟨h1, h2⟩ :=
      finalCursor_bounds "00:00" (List.cons_ne_nil m t) hs hw
    have htiles := gapFill_tiles "00:00" hs
    have hemp : emptyFill (m :: t) = [] := by simp [emptyFill]
    cases hlt : strLt (finalCursor "00:00" (m :: t)) "24:00" with
    | true =>
      have hne0 : (finalCursor "00:00" (m :: t) != "00:00") = true := by
        rw [bne_iff_ne]
        intro he
        rw [he, strLt_irrefl] at h1
        exact Bool.noConfusion h1
      have hfin : finalFill (m :: t) =
          [⟨"Self Consumption", finalCursor "00:00" (m :: t), "24:00"⟩] := by
        rw [finalFill]
        simp only [hlt, hne0, Bool.and_self, if_true]
      have htail : tilesB (finalCursor "00:00" (m :: t)) "24:00"
          (finalFill (m :: t)) = true := by
        rw [hfin, tilesB, tilesB]
        simp
      have := tilesB_append htiles htail
      rw [buildSchedule, hemp, List.append_nil]
      exact tiles_contiguous
        (by cases hpre : strLt "00:00" m.startT <;> simp [gapFillSegs, finalFill, hpre])
        this
    | false =>
      have hceq : finalCursor "00:00" (m :: t) = "24:00" := strLt_antisymm hlt h2
      have hfin : finalFill (m :: t) = [] := by
        simp [finalFill, hlt]
      rw [buildSchedule, hemp, hfin, List.append_nil, List.append_nil]
      rw [hceq] at htiles
      exact tiles_contiguous gapFillSegs_ne_nil htiles

/-! ## Mode-name lemmas: what the pool can contain -/

theorem poolModes_mode_cases {x : ModeSegment} {f : Fields} (hx : x ∈ poolModes f) :
    x.mode = "AC Charge"
      ∨ (x.mode = "Peak Shaving" ∧ peakEnabled f = true)
      ∨ (x.mode = "Forced Charge" ∧ forcedChargeEnabled f = true)
      ∨ (x.mode = "Forced Discharge" ∧ forcedDischargeEnabled f = true) := by
  rw [poolModes] at hx
  rcases List.mem_append.mp hx with hx' | hfd
  · rcases List.mem_append.mp hx' with hx'' | hfc
    · rcases List.mem_append.mp hx'' with hac | hps
      · obtain ⟨s, _, rfl⟩ := List.mem_map.mp hac
        exact Or.inl rfl
      · cases hpe : peakEnabled f with
        | false => rw [if_neg (by simp [hpe])] at hps; cases hps
        | true =>
          rw [if_pos hpe] at hps
          obtain ⟨s, _, rfl⟩ := List.mem_map.mp hps
          exact Or.inr (Or.inl ⟨rfl, rfl⟩)
    · cases hfe : forcedChargeEnabled f with
      | false => rw [if_neg (by simp [hfe])] at hfc; cases hfc
      | true =>
        rw [if_pos hfe] at hfc
        obtain ⟨s, _, rfl⟩ := List.mem_map.mp hfc
        exact Or.inr (Or.inr (Or.inl ⟨rfl, rfl⟩))
  · cases hde : forcedDischargeEnabled f with
    | false => rw [if_neg (by simp [hde])] at hfd; cases hfd
    | true =>
      rw [if_pos hde] at hfd
      obtain ⟨s, _, rfl⟩ := List.mem_map.mp hfd
      exact Or.inr (Or.inr (Or.inr ⟨rfl, rfl⟩))

theorem mem_workingSchedule_of_pool {x : ModeSegment} {f : Fields}
    (hx : x ∈ poolModes f) : x ∈ workingSchedule f :=
  mem_buildSchedule_of_mem (mem_sortModes.mpr hx)

theorem no_peak_when_disabled {f : Fields} (h : peakEnabled f = false)
    {x : ModeSegment} (hx : x ∈ workingSchedule f) : x.mode ≠ "Peak Shaving" := by
  rcases workingSchedule_mem_cases hx with hp | ⟨hsc, _⟩
  · rcases poolModes_mode_cases hp with h1 | ⟨_, h2⟩ | ⟨h1, _⟩ | ⟨h1, _⟩
    · rw [h1]; decide
    · rw [h2] at h; exact Bool.noConfusion h
    · rw [h1]; decide
    · rw [h1]; decide
  · rw [hsc]; decide

theorem no_forced_charge_when_disabled {f : Fields} (h : forcedChargeEnabled f = false)
    {x : ModeSegment} (hx : x ∈ workingSchedule f) : x.mode ≠ "Forced Charge" := by
  rcases workingSchedule_mem_cases hx with hp | ⟨hsc, _⟩
  · rcases poolModes_mode_cases hp with h1 | ⟨h1, _⟩ | ⟨_, h2⟩ | ⟨h1, _⟩
    · rw [h1]; decide
    · rw [h1]; decide
    · rw [h2] at h; exact Bool.noConfusion h
    · rw [h1]; decide
  · rw [hsc]; decide

theorem no_forced_discharge_when_disabled {f : Fields} (h : forcedDischargeEnabled f = false)
    {x : ModeSegment} (hx : x ∈ workingSchedule f) : x.mode ≠ "Forced Discharge" := by
  rcases workingSchedule_mem_cases hx with hp | ⟨hsc, _⟩
  · rcases poolModes_mode_cases hp with h1 | ⟨h1, _⟩ | ⟨h1, _⟩ | ⟨_, h2⟩
    · rw [h1]; decide
    · rw [h1]; decide
    · rw [h1]; decide
    · rw [h2] at h; exact Bool.noConfusion h
  · rw [hsc]; decide

/-! ## The claims -/

/-- A register-field map with two overlapping AC-Charge slots
(00:00–10:00 and 01:00–02:00): all fields honest register values, yet the
emitted schedule is not contiguous. -/
def overlapFields : Fields :=
  fieldsOf [("HOLD_AC_CHARGE_END_HOUR", .num 10),
            ("HOLD_AC_CHARGE_START_HOUR_1", .num 1),
            ("HOLD_AC_CHARGE_END_HOUR_1", .num 2)]

/-- C1 counterexample: the claim quantifies over every input register-field
mapping, but on `overlapFields` (two overlapping kept AC-Charge slots) the
emitted schedule is `[00:00–10:00, 01:00–02:00, 02:00–24:00]` — the first
segment's end does not equal the second segment's start, so the schedule
invariant fails. -/
theorem c1_counterexample : contiguousB (workingSchedule overlapFields) = false := by
  decide

/-- C1 (amended): for every input register-field mapping, families whose
enable flag is off contribute zero segments to the emitted schedule
(unconditionally); and whenever the kept and enabled slots, sorted by start
time, are pairwise non-overlapping starting from `"00:00"` (`sortedSepB`) and
are forward intervals ending within the day (`wfSlotsB`), the emitted
schedule read left to right has each segment's end equal to the next
segment's start, the first segment starting at `"00:00"` and the last ending
at `"24:00"`. -/
theorem c1_schedule_contiguous (f : Fields) :
    (peakEnabled f = false → ∀ x ∈ workingSchedule f, x.mode ≠ "Peak Shaving")
    ∧ (forcedChargeEnabled f = false → ∀ x ∈ workingSchedule f, x.mode ≠ "Forced Charge")
    ∧ (forcedDischargeEnabled f = false → ∀ x ∈ workingSchedule f, x.mode ≠ "Forced Discharge")
    ∧ (sortedSepB "00:00" (sortModes (poolModes f)) = true →
       wfSlotsB (sortModes (poolModes f)) = true →
       contiguousB (workingSchedule f) = true) :=
  ⟨fun h _ hx => no_peak_when_disabled h hx,
   fun h _ hx => no_forced_charge_when_disabled h hx,
   fun h _ hx => no_forced_discharge_when_disabled h hx,
   fun hs hw => buildSchedule_contiguous hs hw⟩

/-- A register-field map with a single AC-Charge slot 01:30–04:00. -/
def singleSlotFields : Fields :=
  fieldsOf [("HOLD_AC_CHARGE_START_HOUR", .num 1),
            ("HOLD_AC_CHARGE_START_MINUTE", .num 30),
            ("HOLD_AC_CHARGE_END_HOUR", .num 4)]

/-- C1 witness: the amended claim applied to a well-formed concrete input —
its schedule is contiguous, and its disabled Peak-Shaving family leaks
nothing (checked at the schedule's head segment). -/
theorem c1_witness :
    contiguousB (workingSchedule singleSlotFields) = true
    ∧ (⟨"Self Consumption", "00:00", "01:30"⟩ : ModeSegment).mode ≠ "Peak Shaving" :=
  ⟨(c1_schedule_contiguous singleSlotFields).2.2.2 (by decide) (by decide),
   (c1_schedule_contiguous singleSlotFields).1 (by decide)
     ⟨"Self Consumption", "00:00", "01:30"⟩ (by decide)⟩

/-- C2: if all four mode families yield zero kept-and-enabled slots, the
reconstructed schedule is exactly the single whole-day Self-Consumption
segment. -/
theorem c2_empty_schedule (f : Fields)
    (h1 : acChargeList f = [])
    (h2 : peakEnabled f = true → peakShavingList f = [])
    (h3 : forcedChargeEnabled f = true → forcedChargeList f = [])
    (h4 : forcedDischargeEnabled f = true → forcedDischargeList f = []) :
    workingSchedule f = [⟨"Self Consumption", "00:00", "24:00"⟩] := by
  have hpool : poolModes f = [] := by
    rw [poolModes, h1]
    have e2 : (if peakEnabled f then (peakShavingList f).map (segOf "Peak Shaving") else [])
        = [] := by
      cases hpe : peakEnabled f with
      | false => simp
      | true => simp [h2 hpe]
    have e3 : (if forcedChargeEnabled f then (forcedChargeList f).map (segOf "Forced Charge") else [])
        = [] := by
      cases hfe : forcedChargeEnabled f with
      | false => simp
      | true => simp [h3 hfe]
    have e4 : (if forcedDischargeEnabled f then (forcedDischargeList f).map (segOf "Forced Discharge") else [])
        = [] := by
      cases hde : forcedDischargeEnabled f with
      | false => simp
      | true => simp [h4 hde]
    rw [e2, e3, e4]
    simp
  show buildSchedule (sortModes (poolModes f)) = _
  rw [hpool]
  decide

/-- C2 witness: the empty field map yields zero slots in every family, and
its schedule is the single whole-day Self-Consumption segment. -/
theorem c2_witness :
    workingSchedule (fieldsOf []) = [⟨"Self Consumption", "00:00", "24:00"⟩] :=
  c2_empty_schedule (fieldsOf []) (by decide) (fun _ => by decide)
    (fun _ => by decide) (fun _ => by decide)

/-- All four time fields of a slot parse to actual numbers (no `NaN`). -/
def slotFieldsParse (f : Fields) (p : SlotKeys) : Prop :=
  (getTimeField f p.sh).isSome ∧ (getTimeField f p.sm).isSome
    ∧ (getTimeField f p.eh).isSome ∧ (getTimeField f p.em).isSome

instance (f : Fields) (p : SlotKeys) : Decidable (slotFieldsParse f p) := by
  unfold slotFieldsParse
  infer_instance

/-- The first AC-Charge slot's field names. -/
def acKeys0 : SlotKeys :=
  ⟨"HOLD_AC_CHARGE_START_HOUR", "HOLD_AC_CHARGE_START_MINUTE",
   "HOLD_AC_CHARGE_END_HOUR", "HOLD_AC_CHARGE_END_MINUTE"⟩

/-- A register-field map whose first AC-Charge slot has the unparseable
string `"x"` in both its start-hour and end-hour fields. -/
def nanFields : Fields :=
  fieldsOf [("HOLD_AC_CHARGE_START_HOUR", .str "x"),
            ("HOLD_AC_CHARGE_END_HOUR", .str "x")]

/-- C3 counterexample: on `nanFields` the parsed `(startHour, startMinute)`
pair equals the parsed `(endHour, endMinute)` pair (both are `(NaN, 0)`),
yet the slot IS materialized (as the degenerate `"NaN:00"–"NaN:00"` slot),
because JavaScript `NaN !== NaN` makes the keep-test succeed.  So
"materialized iff the pairs differ" fails as stated. -/
theorem c3_counterexample :
    (getTimeField nanFields acKeys0.sh, getTimeField nanFields acKeys0.sm)
        = (getTimeField nanFields acKeys0.eh, getTimeField nanFields acKeys0.em)
    ∧ (extractSlot nanFields acKeys0).isSome = true
    ∧ acChargeList nanFields = [⟨"NaN:00", "NaN:00"⟩] := by
  decide

/-- C3 (amended): for every slot of every family whose four time fields each
parse to a number (missing fields default to 0), the slot is materialized iff
`(startHour, startMinute) ≠ (endHour, endMinute)`; a materialized slot is in
the family's sub-list, and a dropped slot contributes nothing to it. -/
theorem c3_kept_iff (f : Fields) (p : SlotKeys) (h : slotFieldsParse f p) :
    ((extractSlot f p).isSome = true ↔
      (getTimeField f p.sh, getTimeField f p.sm)
        ≠ (getTimeField f p.eh, getTimeField f p.em))
    ∧ (∀ s, extractSlot f p = some s →
        ∀ ks : List SlotKeys, p ∈ ks → s ∈ ks.filterMap (extractSlot f))
    ∧ (extractSlot f p = none →
        ∀ ks : List SlotKeys, (p :: ks).filterMap (extractSlot f)
          = ks.filterMap (extractSlot f)) := by
  refine ⟨?_, fun s hs ks hp => List.mem_filterMap.mpr ⟨p, hp, hs⟩,
    fun hn ks => by simp [List.filterMap_cons, hn]⟩
  obtain ⟨h1, h2, h3, h4⟩ := h
  obtain ⟨a, ha⟩ := Option.isSome_iff_exists.mp h1
  obtain ⟨b, hb⟩ := Option.isSome_iff_exists.mp h2
  obtain ⟨c, hc⟩ := Option.isSome_iff_exists.mp h3
  obtain ⟨d, hd⟩ := Option.isSome_iff_exists.mp h4
  rw [extractSlot]
  simp only [ha, hb, hc, hd, jsStrictNe]
  by_cases hac : a = c
  · by_cases hbd : b = d
    · subst hac; subst hbd
      simp
    · simp [hac, hbd]
  · simp [hac]

/-- C3 witness: the amended claim applied to the concrete single-slot input
(slot kept, pairs differ). -/
theorem c3_witness :
    (extractSlot singleSlotFields acKeys0).isSome = true ↔
      (getTimeField singleSlotFields acKeys0.sh, getTimeField singleSlotFields acKeys0.sm)
        ≠ (getTimeField singleSlotFields acKeys0.eh, getTimeField singleSlotFields acKeys0.em) :=
  (c3_kept_iff singleSlotFields acKeys0 (by decide)).1

/-- C4: gating of the merge.  Every kept AC-Charge slot enters the schedule
unconditionally (no enable flag consulted); each gated family's enable flag
counts as on exactly when the raw field is the boolean `true` or the string
`"true"`; an enabled gated family's kept slots all enter the schedule; a
disabled gated family contributes no segment of its mode. -/
theorem c4_enable_gating (f : Fields) :
    (∀ s ∈ acChargeList f, segOf "AC Charge" s ∈ workingSchedule f)
    ∧ (peakEnabled f = true ↔
        (f "FUNC_GRID_PEAK_SHAVING" = some (.bool true)
          ∨ f "FUNC_GRID_PEAK_SHAVING" = some (.str "true")))
    ∧ (peakEnabled f = true →
        ∀ s ∈ peakShavingList f, segOf "Peak Shaving" s ∈ workingSchedule f)
    ∧ (peakEnabled f = false → ∀ x ∈ workingSchedule f, x.mode ≠ "Peak Shaving")
    ∧ (forcedChargeEnabled f = true ↔
        (f "FUNC_FORCED_CHG_EN" = some (.bool true)
          ∨ f "FUNC_FORCED_CHG_EN" = some (.str "true")))
    ∧ (forcedChargeEnabled f = true →
        ∀ s ∈ forcedChargeList f, segOf "Forced Charge" s ∈ workingSchedule f)
    ∧ (forcedChargeEnabled f = false → ∀ x ∈ workingSchedule f, x.mode ≠ "Forced Charge")
    ∧ (forcedDischargeEnabled f = true ↔
        (f "FUNC_FORCED_DISCHG_EN" = some (.bool true)
          ∨ f "FUNC_FORCED_DISCHG_EN" = some (.str "true")))
    ∧ (forcedDischargeEnabled f = true →
        ∀ s ∈ forcedDischargeList f, segOf "Forced Discharge" s ∈ workingSchedule f)
    ∧ (forcedDischargeEnabled f = false →
        ∀ x ∈ workingSchedule f, x.mode ≠ "Forced Discharge") := by
  refine ⟨?_, ?_, ?_, ?_, ?_, ?_, ?_, ?_, ?_, ?_⟩
  · intro s hs
    apply mem_workingSchedule_of_pool
    rw [poolModes]
    exact List.mem_append_left _ (List.mem_append_left _
      (List.mem_append_left _ (List.mem_map_of_mem _ hs)))
  · simp [peakEnabled, readEnable]
  · intro hpe s hs
    apply mem_workingSchedule_of_pool
    rw [poolModes, if_pos hpe]
    exact List.mem_append_left _ (List.mem_append_left _
      (List.mem_append_right _ (List.mem_map_of_mem _ hs)))
  · exact fun h _ hx => no_peak_when_disabled h hx
  · simp [forcedChargeEnabled, readEnable]
  · intro hfe s hs
    apply mem_workingSchedule_of_pool
    rw [poolModes, if_pos hfe]
    exact List.mem_append_left _
      (List.mem_append_right _ (List.mem_map_of_mem _ hs))
  · exact fun h _ hx => no_forced_charge_when_disabled h hx
  · simp [forcedDischargeEnabled, readEnable]
  · intro hde s hs
    apply mem_workingSchedule_of_pool
    rw [poolModes, if_pos hde]
    exact List.mem_append_right _ (List.mem_map_of_mem _ hs)
  · exact fun h _ hx => no_forced_discharge_when_disabled h hx

/-- A register-field map with an AC-Charge slot 01:00–02:00, Peak Shaving
enabled with a slot 03:00–04:00, and Forced Charge configured 05:00–06:00
but NOT enabled. -/
def gatingFields : Fields :=
  fieldsOf [("HOLD_AC_CHARGE_START_HOUR", .num 1),
            ("HOLD_AC_CHARGE_END_HOUR", .num 2),
            ("FUNC_GRID_PEAK_SHAVING", .bool true),
            ("LSP_HOLD_DIS_CHG_POWER_TIME_37", .num 3),
            ("LSP_HOLD_DIS_CHG_POWER_TIME_39", .num 4),
            ("HOLD_FORCED_CHARGE_START_HOUR", .num 5),
            ("HOLD_FORCED_CHARGE_END_HOUR", .num 6)]

/-- C4 witness: on `gatingFields`, the kept AC-Charge slot and the enabled
Peak-Shaving slot are in the schedule, and the configured-but-disabled
Forced-Charge window leaks no segment (checked at the schedule's head). -/
theorem c4_witness :
    segOf "AC Charge" ⟨"01:00", "02:00"⟩ ∈ workingSchedule gatingFields
    ∧ segOf "Peak Shaving" ⟨"03:00", "04:00"⟩ ∈ workingSchedule gatingFields
    ∧ (⟨"Self Consumption", "00:00", "01:00"⟩ : ModeSegment).mode ≠ "Forced Charge" :=
  ⟨(c4_enable_gating gatingFields).1 ⟨"01:00", "02:00"⟩ (by decide),
   (c4_enable_gating gatingFields).2.2.1 (by decide) ⟨"03:00", "04:00"⟩ (by decide),
   (c4_enable_gating gatingFields).2.2.2.2.2.2.1 (by decide)
     ⟨"Self Consumption", "00:00", "01:00"⟩ (by decide)⟩

/-- A session state whose stored credential is the empty string (non-null)
and a session state whose timestamp is 0: on both, the claim's
characterisation of `isSessionValid` predicts `true` but the code returns
`false` (JavaScript truthiness of `""` and `0`). -/
theorem c5_counterexample :
    ((⟨some "", some 1000, none⟩ : ServerState).sessionCookie ≠ none
      ∧ (⟨some "", some 1000, none⟩ : ServerState).lastLoginTime = some 1000
      ∧ (1000 : Int) - 1000 < SESSION_TIMEOUT
      ∧ isSessionValid ⟨some "", some 1000, none⟩ 1000 = false)
    ∧ ((⟨some "ok", some 0, none⟩ : ServerState).sessionCookie ≠ none
      ∧ (⟨some "ok", some 0, none⟩ : ServerState).lastLoginTime = some 0
      ∧ (0 : Int) - 0 < SESSION_TIMEOUT
      ∧ isSessionValid ⟨some "ok", some 0, none⟩ 0 = false) := by
  decide

/-- C5 (amended): `isSessionValid()` returns true exactly when the stored
credential is non-null AND non-empty, a non-zero login timestamp exists, and
the elapsed time since login is strictly under 30 minutes; for a session
with non-empty credential acquired at a non-zero time `t` it returns true at
`t + 29min` and false at `t + 31min`. -/
theorem c5_session_validity (st : ServerState) (now : Int) :
    (isSessionValid st now = true ↔
      ∃ c t, st.sessionCookie = some c ∧ c ≠ "" ∧ st.lastLoginTime = some t
        ∧ t ≠ 0 ∧ now - t < SESSION_TIMEOUT)
    ∧ (∀ c t, c ≠ "" → t ≠ 0 →
        isSessionValid ⟨some c, some t, st.currentSerialNum⟩ (t + 29 * 60 * 1000) = true
        ∧ isSessionValid ⟨some c, some t, st.currentSerialNum⟩ (t + 31 * 60 * 1000) = false) := by
  constructor
  · obtain ⟨sc, lt, cs⟩ := st
    cases sc <;> cases lt <;>
      simp [isSessionValid, truthyStrOpt, truthyIntOpt, bne_iff_ne, and_assoc]
  · intro c t hc ht
    constructor
    · simp only [isSessionValid, truthyStrOpt, truthyIntOpt, Option.getD_some,
        bne_iff_ne, SESSION_TIMEOUT]
      simp [hc, ht]
    · simp only [isSessionValid, truthyStrOpt, truthyIntOpt, Option.getD_some,
        bne_iff_ne, SESSION_TIMEOUT]
      simp [hc, ht]

/-- C5 witness: the boundary behaviour at a concrete non-degenerate session. -/
theorem c5_witness :
    isSessionValid ⟨some "x", some 1, none⟩ (1 + 29 * 60 * 1000) = true
    ∧ isSessionValid ⟨some "x", some 1, none⟩ (1 + 31 * 60 * 1000) = false :=
  (c5_session_validity ⟨some "x", some 1, none⟩ 0).2 "x" 1 (by decide) (by decide)

/-- C6: the realtime endpoint reports `consumptionPower` as
`max(0, ppv + pToUser + pDisCharge − pToGrid − pCharge)` of the runtime
inputs with missing inputs defaulting to 0, and the reported consumption is
never negative, even when the subtracted terms exceed the added ones. -/
theorem c6_consumption_clamped (st : ServerState) (now : Int) (r : Runtime) :
    consumptionPower r
      = max 0 ((r.ppv.getD 0) + (r.pToUser.getD 0) + (r.pDisCharge.getD 0)
          - (r.pToGrid.getD 0) - (r.pCharge.getD 0))
    ∧ 0 ≤ consumptionPower r
    ∧ (isSessionValid st now = true → jsTruthyOpt st.currentSerialNum = true →
        realtimeConsumption st now r = some (consumptionPower r)) := by
  refine ⟨rfl, le_max_left 0 _, fun h1 h2 => ?_⟩
  simp [realtimeConsumption, h1, h2]

/-- C6 witness: the spec's worked example
`{ppv:1000, pToUser:200, pDisCharge:0, pToGrid:1500, pCharge:0}` is reported
through the gate as the clamped value 0. -/
theorem c6_witness :
    realtimeConsumption ⟨some "c", some 1, some (.str "SN")⟩ 2
        ⟨some 1000, some 200, some 0, some 1500, some 0⟩
      = some (consumptionPower ⟨some 1000, some 200, some 0, some 1500, some 0⟩)
    ∧ consumptionPower ⟨some 1000, some 200, some 0, some 1500, some 0⟩ = 0 :=
  ⟨(c6_consumption_clamped ⟨some "c", some 1, some (.str "SN")⟩ 2
      ⟨some 1000, some 200, some 0, some 1500, some 0⟩).2.2 (by decide) (by decide),
   by decide⟩

/-- C7: with a valid session, each settings-write handler forwards the
caller's JSON body with the `serialNum` key set to the currently selected
serial number, overriding any caller-supplied value, and leaving every other
key untouched; without a valid session each returns an authentication error
and forwards nothing. -/
theorem c7_settings_forwarding (st : ServerState) (now : Int) (body : Body) :
    (isSessionValid st now = true →
      setWorkingMode st now body
          = .forwarded "/api/inverter/setWorkingMode" (injectSerial body st.currentSerialNum)
      ∧ setAcCharge st now body
          = .forwarded "/api/inverter/setAcChargeConfig" (injectSerial body st.currentSerialNum)
      ∧ setPeakShaving st now body
          = .forwarded "/api/inverter/setPeakShavingConfig" (injectSerial body st.currentSerialNum)
      ∧ setBatterySettings st now body
          = .forwarded "/api/inverter/setBatteryConfig" (injectSerial body st.currentSerialNum)
      ∧ injectSerial body st.currentSerialNum "serialNum"
          = some ((st.currentSerialNum).getD .null)
      ∧ (∀ k, k ≠ "serialNum" → injectSerial body st.currentSerialNum k = body k))
    ∧ (isSessionValid st now = false →
      setWorkingMode st now body = .authError
      ∧ setAcCharge st now body = .authError
      ∧ setPeakShaving st now body = .authError
      ∧ setBatterySettings st now body = .authError) := by
  constructor
  · intro h
    refine ⟨?_, ?_, ?_, ?_, ?_, fun k hk => ?_⟩
    · simp [setWorkingMode, settingsWrite, h]
    · simp [setAcCharge, settingsWrite, h]
    · simp [setPeakShaving, settingsWrite, h]
    · simp [setBatterySettings, settingsWrite, h]
    · simp [injectSerial]
    · simp [injectSerial, hk]
  · intro h
    refine ⟨?_, ?_, ?_, ?_⟩
    · simp [setWorkingMode, settingsWrite, h]
    · simp [setAcCharge, settingsWrite, h]
    · simp [setPeakShaving, settingsWrite, h]
    · simp [setBatterySettings, settingsWrite, h]

/-- C7 witness: a concrete valid session forwards with the serial number
injected and other keys untouched; a concrete logged-out state yields the
authentication error. -/
theorem c7_witness :
    setWorkingMode ⟨some "c", some 1, some (.str "SN1")⟩ 2 (fun _ => none)
        = .forwarded "/api/inverter/setWorkingMode"
            (injectSerial (fun _ => none) (some (.str "SN1")))
    ∧ injectSerial (fun _ => none) (some (.str "SN1")) "serialNum" = some (.str "SN1")
    ∧ injectSerial (fun _ => none) (some (.str "SN1")) "holdParam" = none
    ∧ setWorkingMode ⟨none, none, none⟩ 0 (fun _ => none) = .authError :=
  ⟨((c7_settings_forwarding ⟨some "c", some 1, some (.str "SN1")⟩ 2 (fun _ => none)).1
      (by decide)).1,
   ((c7_settings_forwarding ⟨some "c", some 1, some (.str "SN1")⟩ 2 (fun _ => none)).1
      (by decide)).2.2.2.2.1,
   ((c7_settings_forwarding ⟨some "c", some 1, some (.str "SN1")⟩ 2 (fun _ => none)).1
      (by decide)).2.2.2.2.2 "holdParam" (by decide),
   ((c7_settings_forwarding ⟨none, none, none⟩ 0 (fun _ => none)).2 (by decide)).1⟩

/-- C8: a select-station call with a non-empty `serialNum` string stores it
in `currentSerialNum` and changes neither the session credential nor the
login timestamp; a call with a missing `serialNum` returns a 400 error and
changes no state at all. -/
theorem c8_select_station (st : ServerState) (s : String) (h : s ≠ "") :
    selectStation st (some (.str s))
        = ({ st with currentSerialNum := some (.str s) }, .ok (.str s))
    ∧ (selectStation st (some (.str s))).1.sessionCookie = st.sessionCookie
    ∧ (selectStation st (some (.str s))).1.lastLoginTime = st.lastLoginTime
    ∧ selectStation st none = (st, .badRequest) := by
  have ht : jsTruthyOpt (some (JsVal.str s)) = true := by
    simp [jsTruthyOpt, jsTruthy, bne_iff_ne, h]
  refine ⟨?_, ?_, ?_, by simp [selectStation, jsTruthyOpt]⟩ <;>
    simp [selectStation, ht]

/-- C8 witness: the concrete initial state with serial `"SN"`. -/
theorem c8_witness :
    selectStation ⟨none, none, none⟩ (some (.str "SN"))
        = (⟨none, none, some (.str "SN")⟩, .ok (.str "SN"))
    ∧ selectStation ⟨none, none, none⟩ none = (⟨none, none, none⟩, .badRequest) :=
  ⟨(c8_select_station ⟨none, none, none⟩ "SN" (by decide)).1,
   (c8_select_station ⟨none, none, none⟩ "SN" (by decide)).2.2.2⟩

/-- C9: when a login attempt reaches the cookie-extraction failure branch
(the extracted cookie string is falsy: no `set-cookie` header, or an empty
join), the handler returns the 401 result with the state — credential,
timestamp and selected device — exactly as it was. -/
theorem c9_login_failure_frame (st : ServerState) (now : Int)
    (account password : Option String) (up : LoginUpstream)
    (ha : truthyStrOpt account = true) (hp : truthyStrOpt password = true)
    (hc : truthyStrOpt (extractCookies up.setCookie) = false) :
    loginHandler st now account password up = (st, .authFailed) := by
  simp [loginHandler, ha, hp, hc]

/-- C9 witness: a concrete prior session and a cookie-less upstream response;
the prior state survives untouched. -/
theorem c9_witness :
    loginHandler ⟨some "old", some 5, some (.str "SN")⟩ 99 (some "a") (some "b")
        ⟨none, [], fun _ => []⟩
      = (⟨some "old", some 5, some (.str "SN")⟩, .authFailed) :=
  c9_login_failure_frame ⟨some "old", some 5, some (.str "SN")⟩ 99 (some "a") (some "b")
    ⟨none, [], fun _ => []⟩ (by decide) (by decide) (by decide)

/-- C10: every synthetic Self-Consumption segment emitted by the gap-fill
step — any emitted segment that is not one of the input segments — has a
start string strictly less than its end string in (code-unit) lexicographic
order, for every input list of pooled mode segments, including empty and
unsorted-overlapping inputs. -/
theorem c10_synthetic_fill_ordered (ms : List ModeSegment) (s : ModeSegment)
    (hs : s ∈ buildSchedule ms) (hn : s ∉ ms) :
    s.mode = "Self Consumption" ∧ strLt s.startT s.endT = true := by
  rcases buildSchedule_mem_cases hs with h | h
  · exact absurd h hn
  · exact h

/-- C10 witness: the whole-day synthetic segment of the empty input. -/
theorem c10_witness :
    (⟨"Self Consumption", "00:00", "24:00"⟩ : ModeSegment).mode = "Self Consumption"
    ∧ strLt "00:00" "24:00" = true :=
  c10_synthetic_fill_ordered [] ⟨"Self Consumption", "00:00", "24:00"⟩
    (by decide) (by decide)

end EG4
